import Mathlib

set_option maxRecDepth 8000

/-! Verification of the ccsound hook-registry core: a shallow embedding of
`src/lib/hooks.ts`, `src/lib/config.ts`, `src/lib/utils.ts` and the test
module, together with proofs about the documented properties.  Filesystem
access, the process environment (`HOME`, the working directory,
`os.platform()`), timestamps and fresh UUIDs are passed in as explicit
parameters; everything else follows the TypeScript source. -/

/-- The five recognized Claude Code event kinds (`VALID_EVENTS` in
`hooks.ts`, `utils.ts` and the test module).  Events are modelled as
strings because the operations validate arbitrary incoming strings at
runtime. -/
def VALID_EVENTS : List String :=
  ["Stop", "Notification", "PreToolUse", "PostToolUse", "SubagentStop"]

/-- Watermark attached to hook entries created by the tool
(`ccsoundWatermark` in `types/index.ts`). -/
structure ccsoundWatermark where
  version : String
  managed : Bool
  created : String
  id : String
  migrated : Option Bool := none
deriving DecidableEq

/-- A single hook entry (`Hook` in `types/index.ts`).  The `type` field is
kept as a string because entries of the shared settings file may be
foreign and carry any value. -/
structure Hook where
  type : String
  command : String
  _ccsound : Option ccsoundWatermark := none
deriving DecidableEq

/-- A hook group (`HookGroup` in `types/index.ts`): optional matcher
strings plus an ordered list of hook entries. -/
structure HookGroup where
  matchers : Option (List String) := none
  hooks : List Hook
deriving DecidableEq

/-- The settings document (`SettingsConfig` in `types/index.ts`): a
mapping from event name to the ordered list of hook groups stored under
that key; `none` models an absent key. -/
structure SettingsConfig where
  hooks : String → Option (List HookGroup)

/-- The settings document `{ hooks: {} }` synthesized on first run. -/
def emptyConfig : SettingsConfig := ⟨fun _ => none⟩

/-- Host platforms distinguished by `os.platform()` in `utils.ts`. -/
inductive Platform where
  | darwin
  | linux
  | win32
  | other
deriving DecidableEq

/-- `getAudioPlayer` from `utils.ts`. -/
def getAudioPlayer : Platform → String
  | .darwin => "afplay"
  | .linux => "aplay"
  | .win32 => "powershell -c \"(New-Object Media.SoundPlayer \x27%s\x27).PlaySync();\""
  | .other => "afplay"

/-- JavaScript `s.replace(/^~/, home)` as used throughout the source: a
single leading tilde is replaced by the value of `HOME`. -/
def expandTilde (home p : String) : String :=
  match p.data with
  | '~' :: rest => home ++ String.mk rest
  | _ => p

/-- Split a character list at every occurrence of characters satisfying
`p`, keeping empty pieces, matching JavaScript `String.split` on a single
delimiter. -/
def splitOnPred (p : Char → Bool) : List Char → List (List Char)
  | [] => [[]]
  | c :: rest =>
    if p c then [] :: splitOnPred p rest
    else
      match splitOnPred p rest with
      | [] => [[c]]
      | s :: ss => (c :: s) :: ss

/-- Split at every occurrence of one delimiter character. -/
def splitOnChar (delim : Char) (cs : List Char) : List (List Char) :=
  splitOnPred (fun c => c = delim) cs

/-- Process empty, `.` and `..` path segments the way Node's
`path.resolve` does for an absolute POSIX path. -/
def normalizeSegments (segs : List (List Char)) : List (List Char) :=
  segs.foldl
    (fun acc seg =>
      if seg = [] ∨ seg = ['.'] then acc
      else if seg = ['.', '.'] then acc.dropLast
      else acc ++ [seg])
    []

/-- Join path segments with `/` separators. -/
def joinSegments : List (List Char) → List Char
  | [] => []
  | [s] => s
  | s :: rest => s ++ '/' :: joinSegments rest

/-- Model of Node's `path.resolve(p)` for POSIX with an absolute current
working directory `cwd`: an absolute `p` is normalized on its own, a
relative `p` is appended to `cwd` first. -/
def resolvePath (cwd p : String) : String :=
  let full :=
    match p.data with
    | '/' :: _ => p.data
    | _ => cwd.data ++ '/' :: p.data
  String.mk ('/' :: joinSegments (normalizeSegments (splitOnChar '/' full)))

/-- The characters matched by the regex class `\s` (restricted to its
ASCII part, which covers every command this tool reads or writes). -/
def isJSWhitespace (c : Char) : Bool :=
  c = ' ' || c = '\t' || c = '\n' || c = '\r' || c = '\x0b' || c = '\x0c'

/-- Match the part of the command regex after the whitespace run, namely
the pattern fragment of an optional double quote, a nonempty double-quote
free run (capture group 2), an optional double quote, end of input;
returns capture group 2. -/
def matchTail (r : List Char) : Option (List Char) :=
  let r1 :=
    match r with
    | '"' :: rest => rest
    | _ => r
  let r2 := if r1.getLast? = some '"' then r1.dropLast else r1
  if r2 = [] ∨ ('"' : Char) ∈ r2 then none else some r2

/-- Try whitespace-run lengths `k, k-1, ..., 1`: the backtracking order of
the greedy `\s+` quantifier. -/
def tryWhitespaceSplit (s : List Char) : Nat → Option (List Char)
  | 0 => none
  | k + 1 =>
    match matchTail (s.drop (k + 1)) with
    | some g => some g
    | none => tryWhitespaceSplit s k

/-- Capture group 2 of the JavaScript regex used at `hooks.ts` line 70
(`command.match` of the anchored pattern: a leading run of
non-whitespace, a whitespace run, an optional double quote, a nonempty
double-quote-free run as group 2, an optional double quote, end). -/
def matchCommandPattern (cs : List Char) : Option (List Char) :=
  let a := cs.takeWhile (fun c => !isJSWhitespace c)
  let s := cs.dropWhile (fun c => !isJSWhitespace c)
  if a = [] ∨ s = [] then none
  else tryWhitespaceSplit s (s.takeWhile isJSWhitespace).length

/-- Audio-path extraction performed inside `findExistingAudioHook`. -/
def extractPathFromCommand (cmd : String) : Option String :=
  (matchCommandPattern cmd.data).map String.mk

/-- Leftmost match of the JavaScript regex of one double quote, a
nonempty double-quote-free run (the capture), one double quote — the
extraction used by the listing, diagnostics and test modules. -/
def firstQuoted : List Char → Option (List Char)
  | [] => none
  | c :: rest =>
    if c = '"' then
      match rest.takeWhile (fun d => d != '"'), rest.dropWhile (fun d => d != '"') with
      | [], _ => firstQuoted rest
      | content, '"' :: _ => some content
      | _, _ => none
    else firstQuoted rest

/-- The display extraction used by `listHooks`, `runDiagnostics` and the
test module: the first quoted substring of the command if one exists,
else the second piece of `command.split(sep)` with a single space
separator (JavaScript truthiness discards an empty or missing piece). -/
def extractAudioFileDisplay (cmd : String) : Option String :=
  match firstQuoted cmd.data with
  | some q => some (String.mk q)
  | none =>
    match splitOnChar ' ' cmd.data with
    | _ :: t :: _ => if t = [] then none else some (String.mk t)
    | _ => none

/-- `isccsoundManaged` from `hooks.ts`: a group is managed iff some entry
carries a watermark whose `managed` flag is set. -/
def isccsoundManaged (hookGroup : HookGroup) : Bool :=
  hookGroup.hooks.any fun h =>
    match h._ccsound with
    | some w => w.managed
    | none => false

/-- `findExistingccsoundHooks` from `hooks.ts`. -/
def findExistingccsoundHooks (eventHooks : List HookGroup) : List HookGroup :=
  eventHooks.filter fun hookGroup => isccsoundManaged hookGroup

/-- `findExistingAudioHook` from `hooks.ts`: resolve the query path
(expanding a leading tilde first), then return the first managed group
containing a command entry whose extracted, tilde-expanded and resolved
path equals the resolved query path.  Unmanaged groups are skipped. -/
def findExistingAudioHook (home cwd : String) (eventHooks : List HookGroup)
    (audioFile : String) : Option HookGroup :=
  let expandedPath := resolvePath cwd (expandTilde home audioFile)
  eventHooks.findSome? fun hookGroup =>
    if isccsoundManaged hookGroup then
      hookGroup.hooks.findSome? fun hook =>
        if hook.type = "command" ∧ hook.command ≠ "" then
          match extractPathFromCommand hook.command with
          | some p =>
            if resolvePath cwd (expandTilde home p) = expandedPath then some hookGroup
            else none
          | none => none
        else none
    else none

/-- `getEventHooks` from `config.ts`: the list stored under the event, or
`[]` when the key is absent. -/
def getEventHooks (config : SettingsConfig) (event : String) : List HookGroup :=
  (config.hooks event).getD []

/-- `setEventHooks` from `config.ts`. -/
def setEventHooks (config : SettingsConfig) (event : String)
    (hooks : List HookGroup) : SettingsConfig :=
  ⟨fun e => if e = event then some hooks else config.hooks e⟩

/-- Result of `validateAudioFile` (`AudioValidation` in
`types/index.ts`); the field `exists?` models the `exists` field. -/
structure AudioValidation where
  exists? : Bool
  path : String
  error : Option String := none
deriving DecidableEq

/-- `validateAudioFile` from `utils.ts`, with the filesystem abstracted
as the predicate `fileExists` on resolved paths. -/
def validateAudioFile (home cwd : String) (fileExists : String → Bool)
    (audioFile : String) : AudioValidation :=
  let expandedPath := resolvePath cwd (expandTilde home audioFile)
  if fileExists expandedPath then
    { exists? := true, path := expandedPath, error := none }
  else
    { exists? := false, path := audioFile, error := some "ENOENT" }

/-- The ambient inputs of `createWatermark`: the package version, the
current ISO timestamp and a fresh UUID string. -/
structure WatermarkInput where
  version : String
  created : String
  uuid : String
deriving DecidableEq

/-- `createWatermark` from `hooks.ts`: `managed` is always `true` and the
id is the fixed prefix followed by the first 8 characters of the UUID. -/
def createWatermark (wm : WatermarkInput) : ccsoundWatermark :=
  { version := wm.version
    managed := true
    created := wm.created
    id := "ccsound_" ++ String.mk (wm.uuid.data.take 8)
    migrated := none }

/-- `AddSoundOptions` from `types/index.ts`. -/
structure AddSoundOptions where
  matcher : Option String := none
deriving DecidableEq

/-- `createAudioHook` from `hooks.ts`: build the watermarked command
entry `player "expandedPath"`, attaching the matcher only when one was
supplied (and is truthy) and the event kind supports matchers. -/
def createAudioHook (platform : Platform) (home : String) (wm : WatermarkInput)
    (event : String) (audioFile : String) (options : AddSoundOptions) : HookGroup :=
  let player := getAudioPlayer platform
  let expandedPath := expandTilde home audioFile
  let hook : Hook :=
    { type := "command"
      command := player ++ " \"" ++ expandedPath ++ "\""
      _ccsound := some (createWatermark wm) }
  match options.matcher with
  | some m =>
    if m ≠ "" ∧ (event = "PreToolUse" ∨ event = "PostToolUse") then
      { matchers := some [m], hooks := [hook] }
    else
      { matchers := none, hooks := [hook] }
  | none => { matchers := none, hooks := [hook] }

/-- The user-visible outcome of `addSoundHook`; the two error outcomes
correspond to `process.exit(1)` after the respective error message. -/
inductive AddOutcome where
  | invalidEvent
  | fileNotFound
  | alreadyExists
  | added
  | replaced
deriving DecidableEq

/-- Result of one `addSoundHook` run: outcome, the in-memory settings
document afterwards, and whether `writeSettingsFile` was invoked. -/
structure AddResult where
  outcome : AddOutcome
  config : SettingsConfig
  wroteFile : Bool

/-- `addSoundHook` from `hooks.ts`.  The settings document read by
`readSettingsFile` is passed in as `config`; the document passed to
`writeSettingsFile` is returned in the result. -/
def addSoundHook (platform : Platform) (home cwd : String)
    (fileExists : String → Bool) (wm : WatermarkInput)
    (config : SettingsConfig) (event audioFile : String)
    (options : AddSoundOptions) : AddResult :=
  if event ∉ VALID_EVENTS then
    { outcome := .invalidEvent, config := config, wroteFile := false }
  else
    let validation := validateAudioFile home cwd fileExists audioFile
    if !validation.exists? then
      { outcome := .fileNotFound, config := config, wroteFile := false }
    else
      let eventHooks := getEventHooks config event
      match findExistingAudioHook home cwd eventHooks audioFile with
      | some _ => { outcome := .alreadyExists, config := config, wroteFile := false }
      | none =>
        let existingccsoundHooks := findExistingccsoundHooks eventHooks
        let nonccsoundHooks := eventHooks.filter fun g => !isccsoundManaged g
        let newHook := createAudioHook platform home wm event audioFile options
        let updatedHooks := nonccsoundHooks ++ [newHook]
        let config2 := setEventHooks config event updatedHooks
        if existingccsoundHooks.length > 0 then
          { outcome := .replaced, config := config2, wroteFile := true }
        else
          { outcome := .added, config := config2, wroteFile := true }

/-- The user-visible outcome of `removeHooks`; `removed 0` is the
"no ccsound-managed hooks found" early return. -/
inductive RemoveOutcome where
  | invalidEvent
  | removed (count : Nat)
deriving DecidableEq

/-- Result of one `removeHooks` run. -/
structure RemoveResult where
  outcome : RemoveOutcome
  config : SettingsConfig
  wroteFile : Bool

/-- `removeHooks` from `hooks.ts`: drop every managed group under the
event, keep the rest, and report how many groups were dropped. -/
def removeHooks (config : SettingsConfig) (event : String) : RemoveResult :=
  if event ∉ VALID_EVENTS then
    { outcome := .invalidEvent, config := config, wroteFile := false }
  else
    let eventHooks := getEventHooks config event
    let filteredHooks := eventHooks.filter fun g => !isccsoundManaged g
    let removedCount := eventHooks.length - filteredHooks.length
    if removedCount = 0 then
      { outcome := .removed 0, config := config, wroteFile := false }
    else
      { outcome := .removed removedCount
        config := setEventHooks config event filteredHooks
        wroteFile := true }

/-- Result of one `clearAllHooks` run. -/
structure ClearResult where
  cancelled : Bool
  totalRemoved : Nat
  config : SettingsConfig
  wroteFile : Bool

/-- The per-event body of the loop inside `clearAllHooks`, threading the
running total and the in-memory document. -/
def clearStep (acc : Nat × SettingsConfig) (event : String) : Nat × SettingsConfig :=
  let eventHooks := getEventHooks acc.2 event
  let filteredHooks := eventHooks.filter fun g => !isccsoundManaged g
  let removedCount := eventHooks.length - filteredHooks.length
  if removedCount > 0 then (acc.1 + removedCount, setEventHooks acc.2 event filteredHooks)
  else acc

/-- `clearAllHooks` from `hooks.ts`: after an interactive confirmation
(passed in as `confirm`), drop every managed group under every recognized
event and write the file once when anything was removed. -/
def clearAllHooks (confirm : Bool) (config : SettingsConfig) : ClearResult :=
  if !confirm then
    { cancelled := true, totalRemoved := 0, config := config, wroteFile := false }
  else
    let res := VALID_EVENTS.foldl clearStep ((0 : Nat), config)
    { cancelled := false, totalRemoved := res.1, config := res.2
      wroteFile := res.1 != 0 }

/-- The state of the settings file on disk as seen by
`readSettingsFile`: absent, present with syntactically invalid JSON, or
present and parsed into a document. -/
inductive FileContent where
  | absent
  | malformed
  | valid (config : SettingsConfig)

/-- Result of `readSettingsFile`: `result = none` models the fatal
`process.exit(1)` after the parse-error message; `fileWritten` records
whether `writeSettingsFile` ran. -/
structure LoadResult where
  result : Option SettingsConfig
  fileWritten : Bool

/-- `readSettingsFile` from `config.ts` with the filesystem abstracted:
an absent file is replaced by the persisted default `{ hooks: {} }`;
malformed JSON is a fatal parse error that leaves the file untouched; a
parsed file is returned as-is. -/
def readSettingsFile : FileContent → LoadResult
  | .absent => { result := some emptyConfig, fileWritten := true }
  | .malformed => { result := none, fileWritten := false }
  | .valid c => { result := some c, fileWritten := false }

/-- `TestOptions` from `types/index.ts` (the fields the test-event flow
consults). -/
structure TestOptions where
  verbose : Bool := false
  dryRun : Bool := false
  showCommand : Bool := false
deriving DecidableEq

/-- The user-visible outcome of `testSpecificEvent`. -/
inductive TestOutcome where
  | invalidEvent
  | noHooks
  | completed (successCount failureCount : Nat)
deriving DecidableEq

/-- The per-hook body of the loop inside `testSpecificEvent`: validate
the displayed audio path, then play (or skip under dry-run), counting
successes and failures. -/
def testHookStep (home cwd : String) (fileExists : String → Bool)
    (playbackOk : String → Bool) (options : TestOptions)
    (acc : Nat × Nat) (hook : Hook) : Nat × Nat :=
  if hook.type = "command" ∧ hook.command ≠ "" then
    match extractAudioFileDisplay hook.command with
    | none => acc
    | some audioFile =>
      if !(validateAudioFile home cwd fileExists audioFile).exists? then
        (acc.1, acc.2 + 1)
      else if options.dryRun then (acc.1 + 1, acc.2)
      else if playbackOk hook.command then (acc.1 + 1, acc.2)
      else (acc.1, acc.2 + 1)
  else acc

/-- `testSpecificEvent` from the test module, with audio playback
abstracted as the predicate `playbackOk` on command strings. -/
def testSpecificEvent (home cwd : String) (fileExists : String → Bool)
    (playbackOk : String → Bool) (config : SettingsConfig) (event : String)
    (options : TestOptions) : TestOutcome :=
  if event ∉ VALID_EVENTS then .invalidEvent
  else
    let eventHooks := getEventHooks config event
    let ccsoundHooks := eventHooks.filter fun g => isccsoundManaged g
    if ccsoundHooks.length = 0 then .noHooks
    else
      let counts := ccsoundHooks.foldl
        (fun acc g => g.hooks.foldl (testHookStep home cwd fileExists playbackOk options) acc)
        ((0 : Nat), (0 : Nat))
      .completed counts.1 counts.2

/-- Nonempty whitespace-delimited tokens of a string. -/
def whitespaceTokens (cs : List Char) : List (List Char) :=
  (splitOnPred isJSWhitespace cs).filter fun s => !s.isEmpty

/-- Modelled from the spec: the documented audio-path extraction contract
of the data-model section — the first quoted substring if one exists,
else the second whitespace-delimited token.  Defined for comparison with
the extraction the code performs in `findExistingAudioHook`. -/
def specExtractAudioPath (cmd : String) : Option String :=
  match firstQuoted cmd.data with
  | some q => some (String.mk q)
  | none =>
    match whitespaceTokens cmd.data with
    | _ :: t :: _ => some (String.mk t)
    | _ => none

/-- Modelled from the spec: `findByPath` as the spec describes it — for
each managed group, extract each command entry's path with the documented
extraction contract, resolve both sides after tilde expansion, and return
the first group whose resolved path equals the resolved query path.
Defined for comparison with `findExistingAudioHook`. -/
def specFindByPath (home cwd : String) (eventHooks : List HookGroup)
    (audioFile : String) : Option HookGroup :=
  let expandedPath := resolvePath cwd (expandTilde home audioFile)
  eventHooks.findSome? fun hookGroup =>
    if isccsoundManaged hookGroup then
      hookGroup.hooks.findSome? fun hook =>
        if hook.type = "command" ∧ hook.command ≠ "" then
          match specExtractAudioPath hook.command with
          | some p =>
            if resolvePath cwd (expandTilde home p) = expandedPath then some hookGroup
            else none
          | none => none
        else none
    else none

/-- Sample watermark inputs used by concrete instantiations. -/
def wmSample : WatermarkInput :=
  { version := "1.0.0", created := "2024-01-01T00:00:00Z", uuid := "abcdef123456" }

/-- A second sample watermark input (a later timestamp and fresh UUID). -/
def wmSample2 : WatermarkInput :=
  { version := "1.0.0", created := "2024-01-02T00:00:00Z", uuid := "fedcba654321" }

/-- A tool-managed sample group playing `/m1.wav`. -/
def sampleManagedGroup : HookGroup :=
  { matchers := none
    hooks := [{ type := "command", command := "afplay \"/m1.wav\""
                _ccsound := some { version := "1.0.0", managed := true
                                   created := "2024-01-01T00:00:00Z", id := "ccsound_aaaa" } }] }

/-- A second tool-managed sample group playing `/m2.wav`. -/
def sampleManagedGroup2 : HookGroup :=
  { matchers := none
    hooks := [{ type := "command", command := "afplay \"/m2.wav\""
                _ccsound := some { version := "1.0.0", managed := true
                                   created := "2024-01-01T00:00:00Z", id := "ccsound_bbbb" } }] }

/-- A foreign (unmanaged) sample group: no entry carries a watermark. -/
def sampleUnmanagedGroup : HookGroup :=
  { matchers := none
    hooks := [{ type := "command", command := "echo done", _ccsound := none }] }

/-- A document with two managed groups and one unmanaged group under
`Stop`. -/
def sampleConfigTwoManaged : SettingsConfig :=
  setEventHooks emptyConfig "Stop" [sampleManagedGroup, sampleManagedGroup2, sampleUnmanagedGroup]

/-- A document with one unmanaged group followed by one managed group
under `Stop`. -/
def sampleConfigMixed : SettingsConfig :=
  setEventHooks emptyConfig "Stop" [sampleUnmanagedGroup, sampleManagedGroup]

/-- A managed group whose command has an unquoted path containing a
space, where the two extraction rules disagree. -/
def spaceyGroup : HookGroup :=
  { matchers := none
    hooks := [{ type := "command", command := "afplay /x y"
                _ccsound := some { version := "1.0.0", managed := true
                                   created := "2024-01-01T00:00:00Z", id := "ccsound_cccc" } }] }

/-- The per-entry test `findExistingAudioHook` applies to a command
entry: a command-typed entry with nonempty command text whose extracted,
tilde-expanded and resolved path equals the resolved query path. -/
def hookMatchesPath (home cwd audioFile : String) (hook : Hook) : Bool :=
  if hook.type = "command" ∧ hook.command ≠ "" then
    match extractPathFromCommand hook.command with
    | some p =>
      decide (resolvePath cwd (expandTilde home p) = resolvePath cwd (expandTilde home audioFile))
    | none => false
  else false

/-- `takeWhile` keeps a prefix whose elements all satisfy the predicate
and stops at the first element that does not. -/
theorem takeWhile_append_stop {α : Type} (p : α → Bool) (l1 : List α) (c : α)
    (l2 : List α) (h : ∀ x ∈ l1, p x = true) (hc : p c = false) :
    (l1 ++ c :: l2).takeWhile p = l1 := by
  induction l1 with
  | nil => simp [List.takeWhile_cons, hc]
  | cons a l ih =>
    have ha := h a (List.mem_cons_self a l)
    simp only [List.cons_append, List.takeWhile_cons, ha, if_true]
    simp [ih fun x hx => h x (List.mem_cons_of_mem a hx)]

/-- `dropWhile` drops exactly the prefix whose elements satisfy the
predicate. -/
theorem dropWhile_append_stop {α : Type} (p : α → Bool) (l1 : List α) (c : α)
    (l2 : List α) (h : ∀ x ∈ l1, p x = true) (hc : p c = false) :
    (l1 ++ c :: l2).dropWhile p = c :: l2 := by
  induction l1 with
  | nil => simp [List.dropWhile_cons, hc]
  | cons a l ih =>
    have ha := h a (List.mem_cons_self a l)
    simp only [List.cons_append, List.dropWhile_cons, ha, if_true]
    exact ih fun x hx => h x (List.mem_cons_of_mem a hx)

/-- `findSome?` skips a prefix on which the function returns `none`. -/
theorem findSome?_append_of_none {α β : Type} (f : α → Option β) (l1 l2 : List α)
    (h : ∀ x ∈ l1, f x = none) :
    (l1 ++ l2).findSome? f = l2.findSome? f := by
  induction l1 with
  | nil => rfl
  | cons a l ih =>
    have ha := h a (List.mem_cons_self a l)
    simp only [List.cons_append, List.findSome?_cons, ha]
    exact ih fun x hx => h x (List.mem_cons_of_mem a hx)

/-- Filtering by a predicate after keeping its complement yields nothing. -/
theorem filter_not_filter {α : Type} (p : α → Bool) (l : List α) :
    (l.filter fun x => !p x).filter p = [] := by
  induction l with
  | nil => rfl
  | cons a l ih => cases hpa : p a <;> simp [List.filter_cons, hpa, ih]

/-- Filtering by the complement of a predicate is idempotent. -/
theorem filter_not_idem {α : Type} (p : α → Bool) (l : List α) :
    (l.filter fun x => !p x).filter (fun x => !p x) = l.filter fun x => !p x :=
  List.filter_eq_self.mpr fun _ ha => List.of_mem_filter (p := fun x => !p x) ha

/-- A list splits, by cardinality, into the part satisfying a predicate
and the part satisfying its complement. -/
theorem length_filter_add_length_filter_not {α : Type} (p : α → Bool) (l : List α) :
    (l.filter p).length + (l.filter fun x => !p x).length = l.length := by
  induction l with
  | nil => rfl
  | cons a l ih => cases hpa : p a <;> simp [List.filter_cons, hpa] <;> omega

/-- A filter of full length keeps the whole list. -/
theorem filter_eq_self_of_length_eq {α : Type} (p : α → Bool) (l : List α)
    (h : (l.filter p).length = l.length) : l.filter p = l := by
  induction l with
  | nil => rfl
  | cons a l ih =>
    cases hpa : p a
    · exfalso
      rw [List.filter_cons, hpa] at h
      have := List.length_filter_le p l
      simp at h
      omega
    · rw [List.filter_cons, hpa] at h ⊢
      simp only [if_true, List.length_cons] at h ⊢
      exact congrArg _ (ih (by omega))

/-- Reading back the event key just written. -/
theorem getEventHooks_set_same (c : SettingsConfig) (e : String) (v : List HookGroup) :
    getEventHooks (setEventHooks c e v) e = v := by
  simp [getEventHooks, setEventHooks]

/-- Reading a different event key than the one written. -/
theorem getEventHooks_set_other (c : SettingsConfig) (e e2 : String)
    (v : List HookGroup) (h : e2 ≠ e) :
    getEventHooks (setEventHooks c e v) e2 = getEventHooks c e2 := by
  simp [getEventHooks, setEventHooks, h]

/-- The hook entry `createAudioHook` builds, independent of the matcher
branch taken. -/
theorem createAudioHook_hooks (platform : Platform) (home : String)
    (wm : WatermarkInput) (event audioFile : String) (options : AddSoundOptions) :
    (createAudioHook platform home wm event audioFile options).hooks =
      [{ type := "command"
         command := getAudioPlayer platform ++ " \"" ++ expandTilde home audioFile ++ "\""
         _ccsound := some (createWatermark wm) }] := by
  obtain ⟨m⟩ := options
  cases m with
  | none => rfl
  | some s =>
    unfold createAudioHook
    dsimp only
    split <;> rfl

/-- Every group built by `createAudioHook` is tool-managed. -/
theorem createAudioHook_managed (platform : Platform) (home : String)
    (wm : WatermarkInput) (event audioFile : String) (options : AddSoundOptions) :
    isccsoundManaged (createAudioHook platform home wm event audioFile options) = true := by
  rw [isccsoundManaged, createAudioHook_hooks]
  simp [createWatermark]

/-- Character-level shape of the command text `createAudioHook` stores. -/
theorem constructed_command_data (p ep : String) :
    (p ++ " \"" ++ ep ++ "\"").data = p.data ++ ' ' :: '"' :: (ep.data ++ ['"']) := by
  simp [String.data_append]

/-- The command regex recovers the quoted path from a command of the
shape `createAudioHook` writes: a whitespace-free player token, one
space, and the path in double quotes. -/
theorem matchCommand_constructed (player ep : List Char)
    (hp : player ≠ []) (hw : ∀ c ∈ player, isJSWhitespace c = false)
    (he : ep ≠ []) (hq : ('"' : Char) ∉ ep) :
    matchCommandPattern (player ++ ' ' :: '"' :: (ep ++ ['"'])) = some ep := by
  have htake : (player ++ ' ' :: '"' :: (ep ++ ['"'])).takeWhile
      (fun c => !isJSWhitespace c) = player :=
    takeWhile_append_stop _ player _ _ (fun x hx => by simp [hw x hx]) (by decide)
  have hdrop : (player ++ ' ' :: '"' :: (ep ++ ['"'])).dropWhile
      (fun c => !isJSWhitespace c) = ' ' :: '"' :: (ep ++ ['"']) :=
    dropWhile_append_stop _ player _ _ (fun x hx => by simp [hw x hx]) (by decide)
  unfold matchCommandPattern
  rw [htake, hdrop, if_neg (by simp [hp])]
  have h1 : isJSWhitespace ' ' = true := by decide
  have h2 : isJSWhitespace '"' = false := by decide
  have hws : (' ' :: '"' :: (ep ++ ['"'])).takeWhile isJSWhitespace = [' '] := by
    simp [List.takeWhile_cons, h1, h2]
  rw [hws]
  show tryWhitespaceSplit (' ' :: '"' :: (ep ++ ['"'])) 1 = some ep
  unfold tryWhitespaceSplit
  have hdrop1 : (' ' :: '"' :: (ep ++ ['"'])).drop 1 = '"' :: (ep ++ ['"']) := rfl
  rw [hdrop1]
  have hmt : matchTail ('"' :: (ep ++ ['"'])) = some ep := by
    unfold matchTail
    simp [List.getLast?_concat, List.dropLast_concat, he, hq]
  rw [hmt]

/-- String-level version of `matchCommand_constructed`: extraction from a
freshly written command recovers the stored (already expanded) path. -/
theorem extract_constructed (player ep : String)
    (hp : player.data ≠ []) (hw : ∀ c ∈ player.data, isJSWhitespace c = false)
    (he : ep.data ≠ []) (hq : ('"' : Char) ∉ ep.data) :
    extractPathFromCommand (player ++ " \"" ++ ep ++ "\"") = some ep := by
  unfold extractPathFromCommand
  rw [constructed_command_data, matchCommand_constructed player.data ep.data hp hw he hq]
  rfl

/-- On every platform except `win32` the player command is a nonempty
whitespace-free token. -/
theorem getAudioPlayer_token (platform : Platform) (h : platform ≠ Platform.win32) :
    (getAudioPlayer platform).data ≠ [] ∧
      ∀ c ∈ (getAudioPlayer platform).data, isJSWhitespace c = false := by
  cases platform
  · exact ⟨by decide, by decide⟩
  · exact ⟨by decide, by decide⟩
  · exact absurd rfl h
  · exact ⟨by decide, by decide⟩

/-- A nonempty character list yields a nonempty string. -/
theorem string_ne_empty_of_data_ne (s : String) (h : s.data ≠ []) : s ≠ "" := by
  intro hs
  rw [hs] at h
  exact h rfl

/-- `findExistingAudioHook` never inspects a leading run of unmanaged
groups. -/
theorem findExistingAudioHook_append_unmanaged (home cwd f : String)
    (l1 l2 : List HookGroup) (h : ∀ x ∈ l1, isccsoundManaged x = false) :
    findExistingAudioHook home cwd (l1 ++ l2) f = findExistingAudioHook home cwd l2 f := by
  unfold findExistingAudioHook
  exact findSome?_append_of_none _ l1 l2 fun x hx => by simp [h x hx]

/-- `findExistingAudioHook` returns a singleton managed group whose only
entry extracts to a path resolving to the query path. -/
theorem findExistingAudioHook_singleton_match (home cwd f : String) (g : HookGroup)
    (hook : Hook) (hg : g.hooks = [hook]) (hman : isccsoundManaged g = true)
    (htype : hook.type = "command") (hcmd : hook.command ≠ "")
    (p : String) (hext : extractPathFromCommand hook.command = some p)
    (hres : resolvePath cwd (expandTilde home p) = resolvePath cwd (expandTilde home f)) :
    findExistingAudioHook home cwd [g] f = some g := by
  unfold findExistingAudioHook
  simp [List.findSome?_cons, hman, hg, htype, hcmd, hext, hres]

/-- Characterization of a successful `addSoundHook` run (valid event,
existing audio file, no duplicate): it writes back the unmanaged groups
followed by the one new managed group, and reports `added` or `replaced`
according to whether managed groups previously existed. -/
theorem addSoundHook_write (platform : Platform) (home cwd : String)
    (fe : String → Bool) (wm : WatermarkInput) (c : SettingsConfig)
    (e f : String) (o : AddSoundOptions)
    (hv : e ∈ VALID_EVENTS)
    (hex : fe (resolvePath cwd (expandTilde home f)) = true)
    (hfind : findExistingAudioHook home cwd (getEventHooks c e) f = none) :
    addSoundHook platform home cwd fe wm c e f o =
      { outcome := if (getEventHooks c e).filter (fun g => isccsoundManaged g) = []
                   then AddOutcome.added else AddOutcome.replaced
        config := setEventHooks c e
          ((getEventHooks c e).filter (fun g => !isccsoundManaged g)
            ++ [createAudioHook platform home wm e f o])
        wroteFile := true } := by
  unfold addSoundHook
  rw [if_neg (by simp [hv])]
  have hval : validateAudioFile home cwd fe f =
      { exists? := true, path := resolvePath cwd (expandTilde home f), error := none } := by
    unfold validateAudioFile
    simp [hex]
  rw [hval]
  dsimp only
  rw [hfind]
  by_cases hcase : (getEventHooks c e).filter (fun g => isccsoundManaged g) = []
  · have hlen : (findExistingccsoundHooks (getEventHooks c e)).length = 0 := by
      unfold findExistingccsoundHooks
      rw [hcase]
      rfl
    simp [hlen, hcase]
  · have hlen : 0 < (findExistingccsoundHooks (getEventHooks c e)).length := by
      unfold findExistingccsoundHooks
      rw [List.length_pos]
      exact hcase
    simp [hlen, hcase]

/-- One `clearAllHooks` loop step never changes the unmanaged groups
visible under any event. -/
theorem clearStep_preserves (e : String) (acc : Nat × SettingsConfig) (ev : String) :
    (getEventHooks (clearStep acc ev).2 e).filter (fun g => !isccsoundManaged g)
      = (getEventHooks acc.2 e).filter (fun g => !isccsoundManaged g) := by
  unfold clearStep
  dsimp only
  split
  · by_cases he : e = ev
    · subst he
      rw [getEventHooks_set_same]
      exact filter_not_idem _ _
    · rw [getEventHooks_set_other acc.2 ev e _ he]
  · rfl

/-- The whole `clearAllHooks` loop never changes the unmanaged groups
visible under any event. -/
theorem clearFold_preserves (e : String) (evs : List String) :
    ∀ acc : Nat × SettingsConfig,
      (getEventHooks (evs.foldl clearStep acc).2 e).filter (fun g => !isccsoundManaged g)
        = (getEventHooks acc.2 e).filter (fun g => !isccsoundManaged g) := by
  induction evs with
  | nil => intro acc; rfl
  | cons ev evs ih =>
    intro acc
    rw [List.foldl_cons, ih, clearStep_preserves]

/-- `addSoundHook` on an unrecognized event: invalid-event outcome, no
document change, no write. -/
theorem addSoundHook_invalid (platform : Platform) (home cwd : String)
    (fe : String → Bool) (wm : WatermarkInput) (c : SettingsConfig)
    (e f : String) (o : AddSoundOptions) (hv : e ∉ VALID_EVENTS) :
    addSoundHook platform home cwd fe wm c e f o =
      { outcome := AddOutcome.invalidEvent, config := c, wroteFile := false } := by
  unfold addSoundHook
  rw [if_pos hv]

/-- `addSoundHook` on a missing audio file: file-not-found outcome, no
document change, no write. -/
theorem addSoundHook_notfound (platform : Platform) (home cwd : String)
    (fe : String → Bool) (wm : WatermarkInput) (c : SettingsConfig)
    (e f : String) (o : AddSoundOptions)
    (hv : e ∈ VALID_EVENTS)
    (hmiss : fe (resolvePath cwd (expandTilde home f)) = false) :
    addSoundHook platform home cwd fe wm c e f o =
      { outcome := AddOutcome.fileNotFound, config := c, wroteFile := false } := by
  unfold addSoundHook
  rw [if_neg (by simp [hv])]
  simp [validateAudioFile, hmiss]

/-- `addSoundHook` when a managed duplicate already exists: already-exists
outcome, no document change, no write. -/
theorem addSoundHook_exists (platform : Platform) (home cwd : String)
    (fe : String → Bool) (wm : WatermarkInput) (c : SettingsConfig)
    (e f : String) (o : AddSoundOptions) (g : HookGroup)
    (hv : e ∈ VALID_EVENTS)
    (hex : fe (resolvePath cwd (expandTilde home f)) = true)
    (hfind : findExistingAudioHook home cwd (getEventHooks c e) f = some g) :
    addSoundHook platform home cwd fe wm c e f o =
      { outcome := AddOutcome.alreadyExists, config := c, wroteFile := false } := by
  unfold addSoundHook
  rw [if_neg (by simp [hv])]
  have hval : validateAudioFile home cwd fe f =
      { exists? := true, path := resolvePath cwd (expandTilde home f), error := none } := by
    unfold validateAudioFile
    simp [hex]
  rw [hval]
  dsimp only
  rw [hfind]
  rfl

/-- `removeHooks` on an unrecognized event: invalid-event outcome, no
document change, no write. -/
theorem removeHooks_invalid (c : SettingsConfig) (e : String) (hv : e ∉ VALID_EVENTS) :
    removeHooks c e =
      { outcome := RemoveOutcome.invalidEvent, config := c, wroteFile := false } := by
  unfold removeHooks
  rw [if_pos hv]

/-- `removeHooks` never changes the unmanaged groups of the event. -/
theorem removeHooks_config_frame (c : SettingsConfig) (e : String) :
    (getEventHooks (removeHooks c e).config e).filter (fun g => !isccsoundManaged g)
      = (getEventHooks c e).filter (fun g => !isccsoundManaged g) := by
  unfold removeHooks
  by_cases hv : e ∉ VALID_EVENTS
  · rw [if_pos hv]
  · rw [if_neg hv]
    dsimp only
    by_cases h0 : (getEventHooks c e).length
        - ((getEventHooks c e).filter fun g => !isccsoundManaged g).length = 0
    · rw [if_pos h0]
    · rw [if_neg h0]
      dsimp only
      rw [getEventHooks_set_same]
      exact filter_not_idem _ _

/-- `testSpecificEvent` on an unrecognized event reports the
invalid-event outcome. -/
theorem testSpecificEvent_invalid (home cwd : String) (fe playbackOk : String → Bool)
    (c : SettingsConfig) (e : String) (topts : TestOptions) (hv : e ∉ VALID_EVENTS) :
    testSpecificEvent home cwd fe playbackOk c e topts = TestOutcome.invalidEvent := by
  unfold testSpecificEvent
  rw [if_pos hv]

/-- Unfolding equation for a confirmed `clearAllHooks` run. -/
theorem clearAllHooks_true_eq (c : SettingsConfig) :
    clearAllHooks true c =
      { cancelled := false
        totalRemoved := (VALID_EVENTS.foldl clearStep ((0 : Nat), c)).1
        config := (VALID_EVENTS.foldl clearStep ((0 : Nat), c)).2
        wroteFile := (VALID_EVENTS.foldl clearStep ((0 : Nat), c)).1 != 0 } := by
  simp [clearAllHooks]

/-- Claim C3: every mutating operation — `addSoundHook`, `removeHooks`
and `clearAllHooks` — leaves the unmanaged hook groups of an event
unchanged, verbatim and in their original relative order. -/
theorem claim3_unmanaged_frame (platform : Platform) (home cwd : String)
    (fe : String → Bool) (wm : WatermarkInput) (c : SettingsConfig)
    (e f : String) (o : AddSoundOptions) (confirm : Bool) :
    ((getEventHooks (addSoundHook platform home cwd fe wm c e f o).config e).filter
        (fun g => !isccsoundManaged g)
      = (getEventHooks c e).filter (fun g => !isccsoundManaged g)) ∧
    ((getEventHooks (removeHooks c e).config e).filter (fun g => !isccsoundManaged g)
      = (getEventHooks c e).filter (fun g => !isccsoundManaged g)) ∧
    ((getEventHooks (clearAllHooks confirm c).config e).filter (fun g => !isccsoundManaged g)
      = (getEventHooks c e).filter (fun g => !isccsoundManaged g)) := by
  refine ⟨?_, removeHooks_config_frame c e, ?_⟩
  · by_cases h1 : e ∈ VALID_EVENTS
    · by_cases h2 : fe (resolvePath cwd (expandTilde home f)) = true
      · cases hfind : findExistingAudioHook home cwd (getEventHooks c e) f with
        | some g => rw [addSoundHook_exists platform home cwd fe wm c e f o g h1 h2 hfind]
        | none =>
          rw [addSoundHook_write platform home cwd fe wm c e f o h1 h2 hfind]
          dsimp only
          rw [getEventHooks_set_same, List.filter_append]
          simp [createAudioHook_managed, filter_not_idem]
      · have h2f : fe (resolvePath cwd (expandTilde home f)) = false := by
          revert h2
          cases fe (resolvePath cwd (expandTilde home f)) <;> simp
        rw [addSoundHook_notfound platform home cwd fe wm c e f o h1 h2f]
    · rw [addSoundHook_invalid platform home cwd fe wm c e f o h1]
  · cases confirm with
    | false => rfl
    | true =>
      rw [clearAllHooks_true_eq c]
      dsimp only
      exact clearFold_preserves e VALID_EVENTS ((0 : Nat), c)

/-- Claim C5: `readSettingsFile` returns and persists the empty document
when the settings file is absent; on malformed JSON it reports a fatal
parse error (`result = none`, modelling the non-zero exit) and does not
write the settings file. -/
theorem claim5_load_behaviour :
    readSettingsFile FileContent.absent
        = { result := some emptyConfig, fileWritten := true } ∧
    readSettingsFile FileContent.malformed
        = { result := none, fileWritten := false } :=
  ⟨rfl, rfl⟩

/-- Claim C7: when the resolved audio file does not exist, `addSoundHook`
on a recognized event fails with the file-not-found outcome and leaves
the settings document untouched, before any read-modify-write. -/
theorem claim7_missing_file (platform : Platform) (home cwd : String)
    (fe : String → Bool) (wm : WatermarkInput) (c : SettingsConfig)
    (e f : String) (o : AddSoundOptions)
    (hv : e ∈ VALID_EVENTS)
    (hmiss : fe (resolvePath cwd (expandTilde home f)) = false) :
    addSoundHook platform home cwd fe wm c e f o =
      { outcome := AddOutcome.fileNotFound, config := c, wroteFile := false } :=
  addSoundHook_notfound platform home cwd fe wm c e f o hv hmiss

/-- Witness for claim C7 at a concrete missing path. -/
theorem claim7_witness :
    addSoundHook Platform.darwin "/h" "/" (fun _ => false) wmSample emptyConfig
        "Notification" "/missing.wav" { matcher := none } =
      { outcome := AddOutcome.fileNotFound, config := emptyConfig, wroteFile := false } :=
  claim7_missing_file Platform.darwin "/h" "/" (fun _ => false) wmSample emptyConfig
    "Notification" "/missing.wav" { matcher := none } (by decide) rfl

/-- Claim C9: every operation accepting an event name — `addSoundHook`,
`removeHooks` and `testSpecificEvent` — rejects a value outside the five
recognized kinds with the invalid-event outcome (a non-zero exit) before
any document change. -/
theorem claim9_invalid_event_rejected (platform : Platform) (home cwd : String)
    (fe playbackOk : String → Bool) (wm : WatermarkInput) (c : SettingsConfig)
    (f : String) (o : AddSoundOptions) (topts : TestOptions) (e : String)
    (hv : e ∉ VALID_EVENTS) :
    addSoundHook platform home cwd fe wm c e f o =
        { outcome := AddOutcome.invalidEvent, config := c, wroteFile := false } ∧
    removeHooks c e =
        { outcome := RemoveOutcome.invalidEvent, config := c, wroteFile := false } ∧
    testSpecificEvent home cwd fe playbackOk c e topts = TestOutcome.invalidEvent :=
  ⟨addSoundHook_invalid platform home cwd fe wm c e f o hv,
   removeHooks_invalid c e hv,
   testSpecificEvent_invalid home cwd fe playbackOk c e topts hv⟩

/-- Witness for claim C9 at the concrete unrecognized event `Foo`. -/
theorem claim9_witness :
    addSoundHook Platform.darwin "/h" "/" (fun _ => true) wmSample emptyConfig
        "Foo" "/a.wav" { matcher := none } =
        { outcome := AddOutcome.invalidEvent, config := emptyConfig, wroteFile := false } ∧
    removeHooks emptyConfig "Foo" =
        { outcome := RemoveOutcome.invalidEvent, config := emptyConfig, wroteFile := false } ∧
    testSpecificEvent "/h" "/" (fun _ => true) (fun _ => true) emptyConfig "Foo"
        { verbose := false, dryRun := false, showCommand := false } = TestOutcome.invalidEvent :=
  claim9_invalid_event_rejected Platform.darwin "/h" "/" (fun _ => true) (fun _ => true)
    wmSample emptyConfig "/a.wav" { matcher := none }
    { verbose := false, dryRun := false, showCommand := false } "Foo" (by decide)

/-- Claim C6: on a recognized event, `removeHooks` removes exactly the
managed groups (reporting their count, 0 when none exist), keeps all
unmanaged groups, and persists the result whenever anything was
removed. -/
theorem claim6_remove_managed (c : SettingsConfig) (e : String) (hv : e ∈ VALID_EVENTS) :
    (removeHooks c e).outcome
        = RemoveOutcome.removed ((getEventHooks c e).filter (fun g => isccsoundManaged g)).length ∧
    getEventHooks (removeHooks c e).config e
        = (getEventHooks c e).filter (fun g => !isccsoundManaged g) ∧
    ((getEventHooks c e).filter (fun g => isccsoundManaged g) ≠ []
        → (removeHooks c e).wroteFile = true) := by
  have hlen : ((getEventHooks c e).filter fun g => isccsoundManaged g).length
      + ((getEventHooks c e).filter fun g => !isccsoundManaged g).length
      = (getEventHooks c e).length :=
    length_filter_add_length_filter_not _ _
  unfold removeHooks
  rw [if_neg (by simp [hv])]
  dsimp only
  by_cases h0 : (getEventHooks c e).length
      - ((getEventHooks c e).filter fun g => !isccsoundManaged g).length = 0
  · rw [if_pos h0]
    have hm0 : ((getEventHooks c e).filter fun g => isccsoundManaged g).length = 0 := by
      have := List.length_filter_le (fun g => !isccsoundManaged g) (getEventHooks c e)
      omega
    refine ⟨by rw [hm0], ?_, ?_⟩
    · have hfl : ((getEventHooks c e).filter fun g => !isccsoundManaged g).length
          = (getEventHooks c e).length := by omega
      exact (filter_eq_self_of_length_eq _ _ hfl).symm
    · intro hne
      exact absurd (List.length_eq_zero.mp hm0) hne
  · rw [if_neg h0]
    have hcnt : (getEventHooks c e).length
        - ((getEventHooks c e).filter fun g => !isccsoundManaged g).length
        = ((getEventHooks c e).filter fun g => isccsoundManaged g).length := by omega
    exact ⟨by rw [hcnt], getEventHooks_set_same c e _, fun _ => rfl⟩

/-- Witness for claim C6: removing under `Stop` from a document with two
managed groups and one unmanaged group leaves exactly the unmanaged
group and reports two removals. -/
theorem claim6_witness :
    (removeHooks sampleConfigTwoManaged "Stop").outcome = RemoveOutcome.removed 2 ∧
    getEventHooks (removeHooks sampleConfigTwoManaged "Stop").config "Stop"
        = [sampleUnmanagedGroup] ∧
    (removeHooks sampleConfigTwoManaged "Stop").wroteFile = true := by
  have h := claim6_remove_managed sampleConfigTwoManaged "Stop" (by decide)
  exact ⟨h.1.trans (by decide), h.2.1.trans (by decide), h.2.2 (by decide)⟩

/-- Claim C1: a successful `addSoundHook` (recognized event, existing
file, no duplicate) leaves exactly one managed group under the event —
the newly constructed watermarked group — regardless of how many managed
groups existed before, and reports `replaced` exactly when at least one
managed group previously existed, `added` otherwise. -/
theorem claim1_single_managed_group (platform : Platform) (home cwd : String)
    (fe : String → Bool) (wm : WatermarkInput) (c : SettingsConfig)
    (e f : String) (o : AddSoundOptions)
    (hv : e ∈ VALID_EVENTS)
    (hex : fe (resolvePath cwd (expandTilde home f)) = true)
    (hfind : findExistingAudioHook home cwd (getEventHooks c e) f = none) :
    ((getEventHooks (addSoundHook platform home cwd fe wm c e f o).config e).filter
        (fun g => isccsoundManaged g)
      = [createAudioHook platform home wm e f o]) ∧
    ((addSoundHook platform home cwd fe wm c e f o).outcome = AddOutcome.replaced
      ↔ (getEventHooks c e).filter (fun g => isccsoundManaged g) ≠ []) ∧
    ((addSoundHook platform home cwd fe wm c e f o).outcome = AddOutcome.added
      ↔ (getEventHooks c e).filter (fun g => isccsoundManaged g) = []) := by
  rw [addSoundHook_write platform home cwd fe wm c e f o hv hex hfind]
  dsimp only
  refine ⟨?_, ?_, ?_⟩
  · rw [getEventHooks_set_same, List.filter_append, filter_not_filter]
    simp [createAudioHook_managed]
  · by_cases hcase : (getEventHooks c e).filter (fun g => isccsoundManaged g) = [] <;>
      simp [hcase]
  · by_cases hcase : (getEventHooks c e).filter (fun g => isccsoundManaged g) = [] <;>
      simp [hcase]

/-- Witness for claim C1: adding `/new.wav` under `Stop` to a document
that already has an unmanaged and a managed group reports `replaced` and
leaves the new group as the only managed one. -/
theorem claim1_witness :
    ((getEventHooks (addSoundHook Platform.darwin "/h" "/" (fun _ => true) wmSample
          sampleConfigMixed "Stop" "/new.wav" { matcher := none }).config "Stop").filter
        (fun g => isccsoundManaged g)
      = [createAudioHook Platform.darwin "/h" wmSample "Stop" "/new.wav" { matcher := none }]) ∧
    (addSoundHook Platform.darwin "/h" "/" (fun _ => true) wmSample
        sampleConfigMixed "Stop" "/new.wav" { matcher := none }).outcome
      = AddOutcome.replaced := by
  have h := claim1_single_managed_group Platform.darwin "/h" "/" (fun _ => true) wmSample
    sampleConfigMixed "Stop" "/new.wav" { matcher := none } (by decide) rfl (by decide)
  exact ⟨h.1, h.2.1.mpr (by decide)⟩

/-- Claim C10: a successful `addSoundHook` stores, under the event, the
original unmanaged groups in their original order followed by the single
new managed group appended at the end. -/
theorem claim10_new_group_last (platform : Platform) (home cwd : String)
    (fe : String → Bool) (wm : WatermarkInput) (c : SettingsConfig)
    (e f : String) (o : AddSoundOptions)
    (hv : e ∈ VALID_EVENTS)
    (hex : fe (resolvePath cwd (expandTilde home f)) = true)
    (hfind : findExistingAudioHook home cwd (getEventHooks c e) f = none) :
    getEventHooks (addSoundHook platform home cwd fe wm c e f o).config e
      = (getEventHooks c e).filter (fun g => !isccsoundManaged g)
        ++ [createAudioHook platform home wm e f o] := by
  rw [addSoundHook_write platform home cwd fe wm c e f o hv hex hfind]
  dsimp only
  exact getEventHooks_set_same c e _

/-- Witness for claim C10: after adding `/new.wav` under `Stop` to a
mixed document, the unmanaged group stays first and the new managed
group is appended last. -/
theorem claim10_witness :
    getEventHooks (addSoundHook Platform.darwin "/h" "/" (fun _ => true) wmSample
        sampleConfigMixed "Stop" "/new.wav" { matcher := none }).config "Stop"
      = [sampleUnmanagedGroup,
         createAudioHook Platform.darwin "/h" wmSample "Stop" "/new.wav" { matcher := none }] := by
  have h := claim10_new_group_last Platform.darwin "/h" "/" (fun _ => true) wmSample
    sampleConfigMixed "Stop" "/new.wav" { matcher := none } (by decide) rfl (by decide)
  exact h.trans (by decide)

/-- After a successful `addSoundHook` of `f`, `findExistingAudioHook`
finds the freshly written group when queried with any path `f2` that
tilde-expands to the same string as `f` (on a platform whose player
command is a single token, for a path free of double quotes). -/
theorem addSoundHook_then_find (platform : Platform) (home cwd : String)
    (fe : String → Bool) (wm1 : WatermarkInput) (c : SettingsConfig)
    (e f : String) (o1 : AddSoundOptions)
    (hplat : platform ≠ Platform.win32)
    (hv : e ∈ VALID_EVENTS)
    (hex : fe (resolvePath cwd (expandTilde home f)) = true)
    (hfind : findExistingAudioHook home cwd (getEventHooks c e) f = none)
    (hne : (expandTilde home f).data ≠ [])
    (hq : ('"' : Char) ∉ (expandTilde home f).data)
    (ht : expandTilde home (expandTilde home f) = expandTilde home f)
    (f2 : String) (hf2 : expandTilde home f2 = expandTilde home f) :
    findExistingAudioHook home cwd
        (getEventHooks (addSoundHook platform home cwd fe wm1 c e f o1).config e) f2
      = some (createAudioHook platform home wm1 e f o1) := by
  rw [addSoundHook_write platform home cwd fe wm1 c e f o1 hv hex hfind]
  dsimp only
  rw [getEventHooks_set_same]
  have hul : ∀ x ∈ (getEventHooks c e).filter (fun g => !isccsoundManaged g),
      isccsoundManaged x = false := by
    intro x hx
    have hm := List.of_mem_filter (p := fun g => !isccsoundManaged g) hx
    simpa using hm
  rw [findExistingAudioHook_append_unmanaged home cwd f2 _ _ hul]
  obtain ⟨hpne, hpw⟩ := getAudioPlayer_token platform hplat
  refine findExistingAudioHook_singleton_match home cwd f2 _
    { type := "command"
      command := getAudioPlayer platform ++ " \"" ++ expandTilde home f ++ "\""
      _ccsound := some (createWatermark wm1) }
    (createAudioHook_hooks platform home wm1 e f o1)
    (createAudioHook_managed platform home wm1 e f o1)
    rfl ?_ (expandTilde home f) ?_ ?_
  · apply string_ne_empty_of_data_ne
    rw [constructed_command_data]
    simp [hpne]
  · exact extract_constructed _ _ hpne hpw hne hq
  · rw [ht, hf2]

/-- A successful `addSoundHook` leaves the new group as the only managed
group under the event. -/
theorem managed_filter_after_write (platform : Platform) (home cwd : String)
    (fe : String → Bool) (wm : WatermarkInput) (c : SettingsConfig)
    (e f : String) (o : AddSoundOptions)
    (hv : e ∈ VALID_EVENTS)
    (hex : fe (resolvePath cwd (expandTilde home f)) = true)
    (hfind : findExistingAudioHook home cwd (getEventHooks c e) f = none) :
    (getEventHooks (addSoundHook platform home cwd fe wm c e f o).config e).filter
        (fun g => isccsoundManaged g)
      = [createAudioHook platform home wm e f o] := by
  rw [addSoundHook_write platform home cwd fe wm c e f o hv hex hfind]
  dsimp only
  rw [getEventHooks_set_same, List.filter_append, filter_not_filter]
  simp [createAudioHook_managed]

/-- Counterexample to claim C2 as stated: for the event `Stop` and the
audio path `/a"b` (which resolves to the same file both times), the
second identical `addSoundHook` call does not report an already-exists
no-op — it replaces the group it just wrote and writes the file again,
because the stored command text `afplay "/a"b"` no longer matches the
duplicate-detection regex. -/
theorem claim2_counterexample :
    (addSoundHook Platform.darwin "/h" "/" (fun _ => true) wmSample2
        (addSoundHook Platform.darwin "/h" "/" (fun _ => true) wmSample emptyConfig
            "Stop" "/a\"b" { matcher := none }).config
        "Stop" "/a\"b" { matcher := none }).outcome = AddOutcome.replaced ∧
    (addSoundHook Platform.darwin "/h" "/" (fun _ => true) wmSample2
        (addSoundHook Platform.darwin "/h" "/" (fun _ => true) wmSample emptyConfig
            "Stop" "/a\"b" { matcher := none }).config
        "Stop" "/a\"b" { matcher := none }).wroteFile = true := by
  exact ⟨by decide, by decide⟩

/-- Claim C2 (amended): `addSoundHook` is idempotent on the
event + path pair for every path whose tilde-expanded form is nonempty,
contains no double-quote character and is stable under a second tilde
expansion, on every platform whose player command is a single token
(every platform but `win32`): after a first genuine add, a second call
with the same event and path reports the already-exists no-op, makes no
document changes, writes nothing, and the event holds exactly one
managed group — the one written by the first call. -/
theorem claim2_idempotent_amended (platform : Platform) (home cwd : String)
    (fe : String → Bool) (wm1 wm2 : WatermarkInput) (c : SettingsConfig)
    (e f : String) (o1 o2 : AddSoundOptions)
    (hplat : platform ≠ Platform.win32)
    (hv : e ∈ VALID_EVENTS)
    (hex : fe (resolvePath cwd (expandTilde home f)) = true)
    (hfind : findExistingAudioHook home cwd (getEventHooks c e) f = none)
    (hne : (expandTilde home f).data ≠ [])
    (hq : ('"' : Char) ∉ (expandTilde home f).data)
    (ht : expandTilde home (expandTilde home f) = expandTilde home f) :
    addSoundHook platform home cwd fe wm2
        (addSoundHook platform home cwd fe wm1 c e f o1).config e f o2
      = { outcome := AddOutcome.alreadyExists
          config := (addSoundHook platform home cwd fe wm1 c e f o1).config
          wroteFile := false } ∧
    ((getEventHooks (addSoundHook platform home cwd fe wm1 c e f o1).config e).filter
        (fun g => isccsoundManaged g)
      = [createAudioHook platform home wm1 e f o1]) := by
  constructor
  · exact addSoundHook_exists platform home cwd fe wm2 _ e f o2
      (createAudioHook platform home wm1 e f o1) hv hex
      (addSoundHook_then_find platform home cwd fe wm1 c e f o1 hplat hv hex hfind
        hne hq ht f rfl)
  · exact managed_filter_after_write platform home cwd fe wm1 c e f o1 hv hex hfind

/-- Witness for the amended claim C2 at a concrete well-behaved path. -/
theorem claim2_witness :
    addSoundHook Platform.darwin "/h" "/" (fun _ => true) wmSample2
        (addSoundHook Platform.darwin "/h" "/" (fun _ => true) wmSample emptyConfig
            "Stop" "/a.wav" { matcher := none }).config
        "Stop" "/a.wav" { matcher := none }
      = { outcome := AddOutcome.alreadyExists
          config := (addSoundHook Platform.darwin "/h" "/" (fun _ => true) wmSample
              emptyConfig "Stop" "/a.wav" { matcher := none }).config
          wroteFile := false } ∧
    ((getEventHooks (addSoundHook Platform.darwin "/h" "/" (fun _ => true) wmSample
          emptyConfig "Stop" "/a.wav" { matcher := none }).config "Stop").filter
        (fun g => isccsoundManaged g)
      = [createAudioHook Platform.darwin "/h" wmSample "Stop" "/a.wav" { matcher := none }]) :=
  claim2_idempotent_amended Platform.darwin "/h" "/" (fun _ => true) wmSample wmSample2
    emptyConfig "Stop" "/a.wav" { matcher := none } { matcher := none }
    (by decide) (by decide) rfl (by decide) (by decide) (by decide) (by decide)

/-- Claim C8: a home-relative path and its absolute expansion are treated
as the same file — after adding `~/a.wav` under `Stop`, adding the
absolute expansion `home ++ "/a.wav"` is an already-exists no-op (not a
replacement) with no document change, because both sides are resolved to
absolute form before comparison.  (Stated for a home directory free of
double quotes whose expansion is stable under tilde expansion, on the
platforms whose player command is a single token.) -/
theorem claim8_path_equivalence (platform : Platform) (home cwd : String)
    (fe : String → Bool) (wm1 wm2 : WatermarkInput) (c : SettingsConfig)
    (o1 o2 : AddSoundOptions)
    (hplat : platform ≠ Platform.win32)
    (hqh : ('"' : Char) ∉ home.data)
    (hth : expandTilde home (home ++ "/a.wav") = home ++ "/a.wav")
    (hex : fe (resolvePath cwd (home ++ "/a.wav")) = true)
    (hfind : findExistingAudioHook home cwd (getEventHooks c "Stop") "~/a.wav" = none) :
    addSoundHook platform home cwd fe wm2
        (addSoundHook platform home cwd fe wm1 c "Stop" "~/a.wav" o1).config
        "Stop" (home ++ "/a.wav") o2
      = { outcome := AddOutcome.alreadyExists
          config := (addSoundHook platform home cwd fe wm1 c "Stop" "~/a.wav" o1).config
          wroteFile := false } := by
  have hexp : expandTilde home "~/a.wav" = home ++ "/a.wav" := rfl
  have hne : (expandTilde home "~/a.wav").data ≠ [] := by
    rw [hexp, String.data_append]
    simp
  have hq : ('"' : Char) ∉ (expandTilde home "~/a.wav").data := by
    rw [hexp, String.data_append]
    simp [hqh]
  have ht : expandTilde home (expandTilde home "~/a.wav") = expandTilde home "~/a.wav" := by
    rw [hexp]
    exact hth
  have hex1 : fe (resolvePath cwd (expandTilde home "~/a.wav")) = true := by
    rw [hexp]
    exact hex
  have hex2 : fe (resolvePath cwd (expandTilde home (home ++ "/a.wav"))) = true := by
    rw [hth]
    exact hex
  exact addSoundHook_exists platform home cwd fe wm2 _ "Stop" (home ++ "/a.wav") o2
    (createAudioHook platform home wm1 "Stop" "~/a.wav" o1) (by decide) hex2
    (addSoundHook_then_find platform home cwd fe wm1 c "Stop" "~/a.wav" o1 hplat
      (by decide) hex1 hfind hne hq ht (home ++ "/a.wav") (hth.trans hexp.symm))

/-- Witness for claim C8 at the concrete home directory `/home/u`. -/
theorem claim8_witness :
    addSoundHook Platform.darwin "/home/u" "/" (fun _ => true) wmSample2
        (addSoundHook Platform.darwin "/home/u" "/" (fun _ => true) wmSample emptyConfig
            "Stop" "~/a.wav" { matcher := none }).config
        "Stop" ("/home/u" ++ "/a.wav") { matcher := none }
      = { outcome := AddOutcome.alreadyExists
          config := (addSoundHook Platform.darwin "/home/u" "/" (fun _ => true) wmSample
              emptyConfig "Stop" "~/a.wav" { matcher := none }).config
          wroteFile := false } :=
  claim8_path_equivalence Platform.darwin "/home/u" "/" (fun _ => true) wmSample wmSample2
    emptyConfig { matcher := none } { matcher := none }
    (by decide) (by decide) (by decide) rfl (by decide)

/-- The per-entry branch of `findExistingAudioHook` returns the group
exactly when `hookMatchesPath` holds for the entry. -/
theorem findExisting_entry_eq (home cwd audioFile : String) (g : HookGroup) (hook : Hook) :
    (if hook.type = "command" ∧ hook.command ≠ "" then
        match extractPathFromCommand hook.command with
        | some p =>
          if resolvePath cwd (expandTilde home p)
              = resolvePath cwd (expandTilde home audioFile) then some g
          else none
        | none => none
      else none)
      = if hookMatchesPath home cwd audioFile hook then some g else none := by
  unfold hookMatchesPath
  by_cases h1 : hook.type = "command" ∧ hook.command ≠ ""
  · cases hext : extractPathFromCommand hook.command with
    | none => simp [h1, hext]
    | some p =>
      by_cases hres : resolvePath cwd (expandTilde home p)
          = resolvePath cwd (expandTilde home audioFile)
      · simp [h1, hext, hres]
      · simp [h1, hext, hres]
  · simp [h1]

/-- The per-group scan of `findExistingAudioHook` returns the group
exactly when some entry matches the query path. -/
theorem findExisting_group_eq (home cwd audioFile : String) (g : HookGroup)
    (hooks : List Hook) :
    (hooks.findSome? fun hook =>
        if hook.type = "command" ∧ hook.command ≠ "" then
          match extractPathFromCommand hook.command with
          | some p =>
            if resolvePath cwd (expandTilde home p)
                = resolvePath cwd (expandTilde home audioFile) then some g
            else none
          | none => none
        else none)
      = if hooks.any (hookMatchesPath home cwd audioFile) then some g else none := by
  induction hooks with
  | nil => rfl
  | cons hook hs ih =>
    simp only [List.findSome?_cons]
    rw [findExisting_entry_eq]
    by_cases hm : hookMatchesPath home cwd audioFile hook
    · simp [hm]
    · simp [hm, ih]

/-- Unfolding equation of `findExistingAudioHook` on a group list. -/
theorem findExistingAudioHook_cons (home cwd audioFile : String) (g : HookGroup)
    (l : List HookGroup) :
    findExistingAudioHook home cwd (g :: l) audioFile
      = if isccsoundManaged g then
          (if g.hooks.any (hookMatchesPath home cwd audioFile)
            then some g
            else findExistingAudioHook home cwd l audioFile)
        else findExistingAudioHook home cwd l audioFile := by
  unfold findExistingAudioHook
  simp only [List.findSome?_cons]
  by_cases hman : isccsoundManaged g
  · rw [if_pos hman, if_pos hman, findExisting_group_eq]
    by_cases hany : g.hooks.any (hookMatchesPath home cwd audioFile)
    · simp [hany]
    · simp [hany]
  · simp [hman]

/-- Claim C4 (amended): `findExistingAudioHook` returns the first managed
group containing a command entry whose path — extracted by the anchored
command regex modelled by `extractPathFromCommand` and
`hookMatchesPath`, not by the documented first-quoted-else-second-token
contract — tilde-expands and resolves to the resolved query path;
unmanaged groups are never inspected. -/
theorem claim4_regex_find (home cwd : String) (eventHooks : List HookGroup)
    (audioFile : String) :
    findExistingAudioHook home cwd eventHooks audioFile
      = eventHooks.find? fun g =>
          isccsoundManaged g && g.hooks.any (hookMatchesPath home cwd audioFile) := by
  induction eventHooks with
  | nil => rfl
  | cons g l ih =>
    rw [findExistingAudioHook_cons, ih]
    by_cases hman : isccsoundManaged g
    · by_cases hany : g.hooks.any (hookMatchesPath home cwd audioFile)
      · simp [List.find?_cons, hman, hany]
      · simp [List.find?_cons, hman, hany]
    · simp [List.find?_cons, hman]

/-- Counterexample to claim C4 as stated: on the managed command
`afplay /x y` (no quotes, a space inside the path) queried with the path
`/x y`, the real `findExistingAudioHook` matches the group — its regex
captures the whole tail `/x y` — while the documented extraction
contract (first quoted substring, else second whitespace-delimited
token) would extract `/x` and find nothing. -/
theorem claim4_counterexample :
    findExistingAudioHook "/h" "/" [spaceyGroup] "/x y" = some spaceyGroup ∧
    specFindByPath "/h" "/" [spaceyGroup] "/x y" = none := by
  exact ⟨by decide, by decide⟩
